import Mathlib

/-! Formal model of `egs_core.py` (EGS Quantum Optimizer).

The file shallowly embeds the circuit builders
`build_genomic_ansatz_standard` and `build_genomic_ansatz_egs`, the noise
model constructor `create_thermal_noise`, and the orchestrator
`run_egs_benchmark` of `src/egs_core.py`, and proves the spec's claims
about them.

Modelling decisions:
* A circuit is a `List (Gate α)` of qiskit instructions in emission order;
  `α` is the numeric type of rotation angles (Python floats; the theorems
  instantiate `α := ℚ`).  `QuantumCircuit.measure_all()` appends a barrier
  and then one measurement per qubit, which `measAll` mirrors.
* Python exceptions are the constructors of `PyErr`.  The constructors
  cover both the exception classes that can actually arise at run time
  (`IndexError` from out-of-range `params[idx]`, `ValueError` from
  `max()` on an empty sequence, qiskit's `TranspilerError`) and the
  error classes named by the project documentation
  (`InsufficientParametersError`, `CompilationError`, `ExecutionError`),
  which the repository itself never defines nor raises.
* Fallible Python functions become `Except PyErr`-valued Lean functions;
  an exception escaping a builder discards the partially built circuit,
  exactly as in Python, so only the raised error is observable.
* The external numpy global random generator is modelled by an explicit
  state-passing structure `NpRandom` (numpy's Mersenne Twister is a
  deterministic function of its seed); the external Aer backend and the
  transpiler are modelled by a record `Backend` of function parameters.
-/

inductive PyErr where
  | indexError
  | valueError
  | transpilerError
  | compilationError
  | executionError
  | insufficientParameters
  deriving DecidableEq, Repr

/-- One qiskit instruction as emitted by `egs_core.py`: Hadamard, the two
parameterised rotations, controlled-X, a barrier marker, or a measurement
of qubit `q` into classical bit `c`. -/
inductive Gate (α : Type) where
  | h (q : ℕ)
  | rz (θ : α) (q : ℕ)
  | rx (θ : α) (q : ℕ)
  | cx (c t : ℕ)
  | barrier
  | measure (q c : ℕ)
  deriving DecidableEq, Repr

variable {α : Type}

/-- Python `params[idx]`: the element at `idx`, or an `IndexError` when the
index is out of range (numpy arrays do not wrap for non-negative indices). -/
def pyGet : List α → ℕ → Except PyErr α
  | [], _ => .error .indexError
  | a :: _, 0 => .ok a
  | _ :: as, n + 1 => pyGet as n

/-- Total variant of `pyGet`, used only in the pure closed forms of the
builders (always applied at in-range indices there). -/
def pgetD [Inhabited α] : List α → ℕ → α
  | [], _ => default
  | a :: _, 0 => a
  | _ :: as, n + 1 => pgetD as n

/-- The `for i in range(n_qubits): qc.h(i)` prologue of both builders. -/
def hRow (α : Type) (n : ℕ) : List (Gate α) :=
  (List.range n).map Gate.h

/-- `qc.measure_all()`: qiskit inserts a barrier and then measures every
qubit into a like-indexed classical bit. -/
def measAll (α : Type) (n : ℕ) : List (Gate α) :=
  Gate.barrier :: (List.range n).map (fun i => Gate.measure i i)

/-- The interleaved pair loop of `build_genomic_ansatz_standard`
(lines 62-66): for each `i` of the index list, emit
`cx(i,i+1); rz(params[idx],i+1); cx(i,i+1)` and advance `idx`. -/
def stdPairs (params : List α) : List ℕ → ℕ → Except PyErr (List (Gate α) × ℕ)
  | [], idx => .ok ([], idx)
  | i :: rest, idx =>
    match pyGet params idx with
    | .error e => .error e
    | .ok θ =>
      match stdPairs params rest (idx + 1) with
      | .error e => .error e
      | .ok (g, idx') =>
        .ok (Gate.cx i (i+1) :: Gate.rz θ (i+1) :: Gate.cx i (i+1) :: g, idx')

/-- The single-qubit mixing loop shared by both builders
(lines 67-69 and 93-95): `rx(params[idx], i)` per index, advancing `idx`. -/
def rxLoop (params : List α) : List ℕ → ℕ → Except PyErr (List (Gate α) × ℕ)
  | [], idx => .ok ([], idx)
  | i :: rest, idx =>
    match pyGet params idx with
    | .error e => .error e
    | .ok θ =>
      match rxLoop params rest (idx + 1) with
      | .error e => .error e
      | .ok (g, idx') => .ok (Gate.rx θ i :: g, idx')

/-- The `rz_ops` collection loop of `build_genomic_ansatz_egs`
(lines 84-87): collect `(i+1, params[idx])` pairs, advancing `idx`. -/
def egsRzOps (params : List α) : List ℕ → ℕ → Except PyErr (List (ℕ × α) × ℕ)
  | [], idx => .ok ([], idx)
  | i :: rest, idx =>
    match pyGet params idx with
    | .error e => .error e
    | .ok θ =>
      match egsRzOps params rest (idx + 1) with
      | .error e => .error e
      | .ok (ops, idx') => .ok ((i + 1, θ) :: ops, idx')

/-- The per-layer loop of `build_genomic_ansatz_standard` (lines 60-69). -/
def stdLayers (params : List α) (n : ℕ) : ℕ → ℕ → Except PyErr (List (Gate α) × ℕ)
  | 0, idx => .ok ([], idx)
  | L + 1, idx =>
    match stdPairs params (List.range (n - 1)) idx with
    | .error e => .error e
    | .ok (g1, idx1) =>
      match rxLoop params (List.range n) idx1 with
      | .error e => .error e
      | .ok (g2, idx2) =>
        match stdLayers params n L idx2 with
        | .error e => .error e
        | .ok (g3, idx3) => .ok (g1 ++ g2 ++ g3, idx3)

/-- The per-layer rotation-stage loop of `build_genomic_ansatz_egs`
(lines 82-96): `rz` batch, barrier, `rx` batch, barrier, next layer. -/
def egsLayers (params : List α) (n : ℕ) : ℕ → ℕ → Except PyErr (List (Gate α) × ℕ)
  | 0, idx => .ok ([], idx)
  | L + 1, idx =>
    match egsRzOps params (List.range (n - 1)) idx with
    | .error e => .error e
    | .ok (ops, idx1) =>
      match rxLoop params (List.range n) idx1 with
      | .error e => .error e
      | .ok (g2, idx2) =>
        match egsLayers params n L idx2 with
        | .error e => .error e
        | .ok (g3, idx3) =>
          .ok ((ops.map fun p => Gate.rz p.2 p.1) ++ [Gate.barrier]
                ++ g2 ++ [Gate.barrier] ++ g3, idx3)

/-- One row `for i in range(n_qubits - 1): qc.cx(i, i+1)` of the deferred
entanglement stage of `build_genomic_ansatz_egs` (lines 100-101). -/
def cxRow (α : Type) (n : ℕ) : List (Gate α) :=
  (List.range (n - 1)).map fun i => Gate.cx i (i + 1)

/-- The deferred entanglement stage of `build_genomic_ansatz_egs`
(lines 99-101): one `cxRow` per layer. -/
def cxBlock (α : Type) (n : ℕ) : ℕ → List (Gate α)
  | 0 => []
  | L + 1 => cxRow α n ++ cxBlock α n L

/-- `build_genomic_ansatz_standard(n_qubits, layers, params)`
(`egs_core.py` lines 54-71). -/
def build_genomic_ansatz_standard (n_qubits layers : ℕ) (params : List α) :
    Except PyErr (List (Gate α)) :=
  match stdLayers params n_qubits layers 0 with
  | .error e => .error e
  | .ok (g, _) => .ok (hRow α n_qubits ++ g ++ measAll α n_qubits)

/-- `build_genomic_ansatz_egs(n_qubits, layers, params)`
(`egs_core.py` lines 73-104). -/
def build_genomic_ansatz_egs (n_qubits layers : ℕ) (params : List α) :
    Except PyErr (List (Gate α)) :=
  match egsLayers params n_qubits layers 0 with
  | .error e => .error e
  | .ok (g, _) =>
    .ok (hRow α n_qubits ++ [Gate.barrier] ++ g
          ++ cxBlock α n_qubits layers ++ measAll α n_qubits)

/-- `n_params = n_layers * (n_qubits + (n_qubits - 1))`
(`egs_core.py` line 114). -/
def nParams (n_qubits n_layers : ℕ) : ℕ :=
  n_layers * (n_qubits + (n_qubits - 1))

/-- Pure closed form of `stdPairs` (its `.ok` gate list). -/
def stdPairsP [Inhabited α] (params : List α) : List ℕ → ℕ → List (Gate α)
  | [], _ => []
  | i :: rest, idx =>
    Gate.cx i (i+1) :: Gate.rz (pgetD params idx) (i+1) :: Gate.cx i (i+1)
      :: stdPairsP params rest (idx + 1)

/-- Pure closed form of `rxLoop`. -/
def rxP [Inhabited α] (params : List α) : List ℕ → ℕ → List (Gate α)
  | [], _ => []
  | i :: rest, idx => Gate.rx (pgetD params idx) i :: rxP params rest (idx + 1)

/-- Pure closed form of the emitted `rz` batch of `egsRzOps`. -/
def egsRzP [Inhabited α] (params : List α) : List ℕ → ℕ → List (Gate α)
  | [], _ => []
  | i :: rest, idx => Gate.rz (pgetD params idx) (i+1) :: egsRzP params rest (idx + 1)

/-- Pure closed form of `stdLayers`. -/
def stdLayersP [Inhabited α] (params : List α) (n : ℕ) : ℕ → ℕ → List (Gate α)
  | 0, _ => []
  | L + 1, idx =>
    stdPairsP params (List.range (n - 1)) idx
      ++ rxP params (List.range n) (idx + (n - 1))
      ++ stdLayersP params n L (idx + (n - 1) + n)

/-- Pure closed form of `egsLayers`. -/
def egsLayersP [Inhabited α] (params : List α) (n : ℕ) : ℕ → ℕ → List (Gate α)
  | 0, _ => []
  | L + 1, idx =>
    egsRzP params (List.range (n - 1)) idx ++ [Gate.barrier]
      ++ rxP params (List.range n) (idx + (n - 1)) ++ [Gate.barrier]
      ++ egsLayersP params n L (idx + (n - 1) + n)

/-- Is the gate a parameterised rotation (`rz` or `rx`)? -/
def Gate.isRot : Gate α → Bool
  | .rz _ _ => true
  | .rx _ _ => true
  | _ => false

/-- Is the gate an entangling `cx`? -/
def Gate.isCx : Gate α → Bool
  | .cx _ _ => true
  | _ => false

/-- Is the gate a barrier marker? -/
def Gate.isBar : Gate α → Bool
  | .barrier => true
  | _ => false

/-- The bound angle of a rotation gate (default elsewhere). -/
def Gate.angleOf [Inhabited α] : Gate α → α
  | .rz θ _ => θ
  | .rx θ _ => θ
  | _ => default

/-- The multiset of (gate kind, target qubit(s), angle) tuples of a built
circuit, barriers excluded (a barrier is a scheduling marker, not a gate);
the empty multiset when construction raised. -/
def opsOfE (r : Except PyErr (List (Gate ℚ))) : Multiset (Gate ℚ) :=
  match r with
  | .ok c => ↑(c.filter fun g => !g.isBar)
  | .error _ => 0

/-- Syntax tree of a qiskit-Aer quantum error expression, as built by
`create_thermal_noise`: `compose a b` applies `a` first and then `b`
(qiskit's `a.compose(b)`), `tensor a b` is qiskit's `a.tensor(b)`. -/
inductive QErr where
  | thermal_relaxation (t1 t2 time : ℚ)
  | depolarizing (p : ℚ) (n : ℕ)
  | tensor (a b : QErr)
  | compose (a b : QErr)
  deriving DecidableEq, Repr

/-- One registration made on a qiskit-Aer `NoiseModel`: the composed error
channel, the gate names it is attached to, and whether it was registered
through `add_all_qubit_quantum_error` (uniformly on all qubits). -/
structure NoiseReg where
  error : QErr
  gates : List String
  allQubits : Bool
  deriving DecidableEq, Repr

/-- A qiskit-Aer `NoiseModel`: its registrations in insertion order. -/
abbrev NoiseModel : Type := List NoiseReg

/-- `NoiseModel.add_all_qubit_quantum_error(error, gate_list)`. -/
def addAllQubitQuantumError (m : NoiseModel) (e : QErr) (gs : List String) :
    NoiseModel :=
  m ++ [⟨e, gs, true⟩]

/-- `create_thermal_noise()` (`egs_core.py` lines 17-44), with the float
constants `120e-6`, `80e-6`, `60e-9`, `300e-9`, `0.001`, `0.01` read as the
rationals they denote. -/
def create_thermal_noise : NoiseModel :=
  let noise_model : NoiseModel := []
  let t1 : ℚ := 120 / 1000000
  let t2 : ℚ := 80 / 1000000
  let time_1q : ℚ := 60 / 1000000000
  let time_2q : ℚ := 300 / 1000000000
  let error_1q_thermal := QErr.thermal_relaxation t1 t2 time_1q
  let error_2q_thermal := QErr.tensor (QErr.thermal_relaxation t1 t2 time_2q)
                            (QErr.thermal_relaxation t1 t2 time_2q)
  let error_1q_op := QErr.depolarizing (1 / 1000) 1
  let error_2q_op := QErr.depolarizing (1 / 100) 2
  let noise_model := addAllQubitQuantumError noise_model
    (QErr.compose error_1q_thermal error_1q_op)
    ["h", "x", "z", "ry", "rz", "rx", "s", "t"]
  let noise_model := addAllQubitQuantumError noise_model
    (QErr.compose error_2q_thermal error_2q_op)
    ["cx", "cz"]
  noise_model

/-- `SHOTS = 8192` (`egs_core.py` line 48). -/
def SHOTS : ℕ := 8192

/-- Model of numpy's global random generator: an abstract state type, the
(deterministic) reseeding function `np.random.seed`, and
`np.random.uniform(low, high, size)` as a pure state-passing sampler
(numpy's Mersenne Twister is a deterministic function of its state). -/
structure NpRandom where
  State : Type
  seedFn : ℕ → State
  uniform : ℚ → ℚ → ℕ → State → List ℚ × State

/-- Model of the external Aer backend and qiskit transpiler used by
`run_egs_benchmark`: `transpile(qc, backend, optimization_level=3)`,
`backend.run(qc, shots).result().get_counts()` (a bitstring-to-count
table), and `qc.depth()` on the compiled circuit. -/
structure Backend where
  transpileOpt3 : List (Gate ℚ) → Except PyErr (List (Gate ℚ))
  runShots : List (Gate ℚ) → ℕ → Except PyErr (List (String × ℕ))
  depth : List (Gate ℚ) → ℕ

/-- The result dictionary of `run_egs_benchmark` (`egs_core.py` 137-142). -/
structure Report where
  fid_std : ℚ
  fid_egs : ℚ
  depth_std : ℕ
  depth_egs : ℕ
  deriving DecidableEq, Repr

instance {e s : Type} [DecidableEq e] [DecidableEq s] : DecidableEq (Except e s) :=
  fun a b =>
  match a, b with
  | .ok x, .ok y =>
    if h : x = y then .isTrue (by rw [h])
    else .isFalse (fun he => h (Except.ok.inj he))
  | .error x, .error y =>
    if h : x = y then .isTrue (by rw [h])
    else .isFalse (fun he => h (Except.error.inj he))
  | .ok _, .error _ => .isFalse (fun he => Except.noConfusion he)
  | .error _, .ok _ => .isFalse (fun he => Except.noConfusion he)

/-- Python `max(counts.values())`: `ValueError` on an empty sequence. -/
def pyMax : List ℕ → Except PyErr ℕ
  | [] => .error .valueError
  | x :: xs => .ok (xs.foldl max x)

/-- Lines 115-116 of `run_egs_benchmark`: `np.random.seed(42)` (overwriting
whatever state the global generator held) followed by
`np.random.uniform(-np.pi, np.pi, n_params)`.  `piv` is the value of the
float constant `np.pi`. -/
def benchParams (R : NpRandom) (piv : ℚ) (n_qubits n_layers : ℕ) :
    List ℚ × R.State :=
  R.uniform (-piv) piv (nParams n_qubits n_layers) (R.seedFn 42)

/-- Lines 119-142 of `run_egs_benchmark`: build both circuits from the one
parameter vector, transpile both, run both, and reduce to the metrics
dictionary.  Every exception of a downstream call propagates unchanged
(the orchestrator has no try/except). -/
def benchFrom (B : Backend) (n_qubits n_layers : ℕ) (params : List ℚ) :
    Except PyErr Report :=
  match build_genomic_ansatz_standard n_qubits n_layers params with
  | .error e => .error e
  | .ok qc_std =>
    match build_genomic_ansatz_egs n_qubits n_layers params with
    | .error e => .error e
    | .ok qc_egs =>
      match B.transpileOpt3 qc_std with
      | .error e => .error e
      | .ok qc_std_opt =>
        match B.transpileOpt3 qc_egs with
        | .error e => .error e
        | .ok qc_egs_opt =>
          match B.runShots qc_std_opt SHOTS with
          | .error e => .error e
          | .ok counts_std =>
            match B.runShots qc_egs_opt SHOTS with
            | .error e => .error e
            | .ok counts_egs =>
              match pyMax (counts_std.map Prod.snd) with
              | .error e => .error e
              | .ok max_std =>
                match pyMax (counts_egs.map Prod.snd) with
                | .error e => .error e
                | .ok max_egs =>
                  .ok { fid_std := (max_std : ℚ) / (SHOTS : ℚ)
                        fid_egs := (max_egs : ℚ) / (SHOTS : ℚ)
                        depth_std := B.depth qc_std_opt
                        depth_egs := B.depth qc_egs_opt }

/-- `run_egs_benchmark(n_qubits, n_layers)` (`egs_core.py` lines 110-142),
with the process-global numpy generator state passed explicitly: the call
receives the caller's current generator state `s` and returns the
possibly-raised result together with the generator state the caller is
left with.  `np.random.seed(42)` discards `s`. -/
def run_egs_benchmark (R : NpRandom) (B : Backend) (piv : ℚ)
    (n_qubits n_layers : ℕ) (s : R.State) :
    Except PyErr Report × R.State :=
  let _ := s
  let pr := benchParams R piv n_qubits n_layers
  (benchFrom B n_qubits n_layers pr.1, pr.2)

/-- The degenerate sampler used to instantiate the random-generator model
in concrete evaluations: stateless, every draw returns the lower bound. -/
def constRandom : NpRandom :=
  { State := Unit
    seedFn := fun _ => ()
    uniform := fun lo _ k _ => (List.replicate k lo, ()) }

/-- A backend model whose transpiler is the identity and whose execution
returns all shots on one outcome; used to instantiate theorems. -/
def okBackend : Backend :=
  { transpileOpt3 := fun c => .ok c
    runShots := fun _ _ => .ok [("0", SHOTS)]
    depth := fun c => c.length }

/-- A backend model whose transpiler always fails with qiskit's
`TranspilerError`; used to instantiate the compilation-failure theorems. -/
def failBackend : Backend :=
  { transpileOpt3 := fun _ => .error .transpilerError
    runShots := fun _ _ => .ok [("0", SHOTS)]
    depth := fun c => c.length }

/-- The standard circuit at `n_qubits = 2`, `n_layers = 1`,
`params = [1, 2, 3]`, written out; used to instantiate theorems. -/
def stdWit : List (Gate ℚ) :=
  [.h 0, .h 1, .cx 0 1, .rz 1 1, .cx 0 1, .rx 2 0, .rx 3 1,
   .barrier, .measure 0 0, .measure 1 1]

/-- The EGS circuit at `n_qubits = 2`, `n_layers = 1`, `params = [1, 2, 3]`,
written out; used to instantiate theorems. -/
def egsWit : List (Gate ℚ) :=
  [.h 0, .h 1, .barrier, .rz 1 1, .barrier, .rx 2 0, .rx 3 1, .barrier,
   .cx 0 1, .barrier, .measure 0 0, .measure 1 1]

/-- Pure closed form of the `rz_ops` pair list of `egsRzOps`. -/
def egsOpsP [Inhabited α] (params : List α) : List ℕ → ℕ → List (ℕ × α)
  | [], _ => []
  | i :: rest, idx => (i + 1, pgetD params idx) :: egsOpsP params rest (idx + 1)

/-- The parameter slice `params[idx], params[idx+1], ..., params[idx+c-1]`
(via the total lookup `pgetD`). -/
def sliceP [Inhabited α] (params : List α) : ℕ → ℕ → List α
  | _, 0 => []
  | idx, c + 1 => pgetD params idx :: sliceP params (idx + 1) c

/-- The rotation gates of a circuit, in emission order. -/
def rotsOf (c : List (Gate α)) : List (Gate α) :=
  c.filter fun g => g.isRot

/-- The angles of the rotation gates of a circuit, in emission order. -/
def rotAngles [Inhabited α] (c : List (Gate α)) : List α :=
  (rotsOf c).map Gate.angleOf

/-- Number of entangling `cx` gates in a circuit. -/
def cxCount (c : List (Gate α)) : ℕ :=
  c.countP fun g => g.isCx

theorem pyGet_ok [Inhabited α] :
    ∀ (l : List α) (n : ℕ), n < l.length → pyGet l n = .ok (pgetD l n) := by
  intro l
  induction l with
  | nil => intro n hn; simp at hn
  | cons a as ih =>
    intro n hn
    cases n with
    | zero => rfl
    | succ m =>
      simp only [List.length_cons, Nat.succ_lt_succ_iff] at hn
      simpa [pyGet, pgetD] using ih m hn

theorem pyGet_err :
    ∀ (l : List α) (n : ℕ), l.length ≤ n → pyGet l n = .error .indexError := by
  intro l
  induction l with
  | nil => intro n _; cases n <;> rfl
  | cons a as ih =>
    intro n hn
    cases n with
    | zero => simp at hn
    | succ m =>
      simp only [List.length_cons, Nat.succ_le_succ_iff] at hn
      simpa [pyGet] using ih m hn

theorem stdPairs_ok [Inhabited α] (params : List α) :
    ∀ (L : List ℕ) (idx : ℕ), idx + L.length ≤ params.length →
      stdPairs params L idx = .ok (stdPairsP params L idx, idx + L.length) := by
  intro L
  induction L with
  | nil => intro idx _; simp [stdPairs, stdPairsP]
  | cons i rest ih =>
    intro idx h
    simp only [List.length_cons] at h
    have h1 : idx < params.length := by omega
    have h2 : (idx + 1) + rest.length ≤ params.length := by omega
    simp only [stdPairs, pyGet_ok params idx h1, ih (idx + 1) h2, stdPairsP]
    have h3 : idx + 1 + rest.length = idx + (i :: rest).length := by
      simp [List.length_cons]; omega
    rw [h3]

theorem rxLoop_ok [Inhabited α] (params : List α) :
    ∀ (L : List ℕ) (idx : ℕ), idx + L.length ≤ params.length →
      rxLoop params L idx = .ok (rxP params L idx, idx + L.length) := by
  intro L
  induction L with
  | nil => intro idx _; simp [rxLoop, rxP]
  | cons i rest ih =>
    intro idx h
    simp only [List.length_cons] at h
    have h1 : idx < params.length := by omega
    have h2 : (idx + 1) + rest.length ≤ params.length := by omega
    simp only [rxLoop, pyGet_ok params idx h1, ih (idx + 1) h2, rxP]
    have h3 : idx + 1 + rest.length = idx + (i :: rest).length := by
      simp [List.length_cons]; omega
    rw [h3]

theorem egsRzOps_ok [Inhabited α] (params : List α) :
    ∀ (L : List ℕ) (idx : ℕ), idx + L.length ≤ params.length →
      egsRzOps params L idx = .ok (egsOpsP params L idx, idx + L.length) := by
  intro L
  induction L with
  | nil => intro idx _; simp [egsRzOps, egsOpsP]
  | cons i rest ih =>
    intro idx h
    simp only [List.length_cons] at h
    have h1 : idx < params.length := by omega
    have h2 : (idx + 1) + rest.length ≤ params.length := by omega
    simp only [egsRzOps, pyGet_ok params idx h1, ih (idx + 1) h2, egsOpsP]
    have h3 : idx + 1 + rest.length = idx + (i :: rest).length := by
      simp [List.length_cons]; omega
    rw [h3]

theorem stdPairs_err [Inhabited α] (params : List α) :
    ∀ (L : List ℕ) (idx : ℕ), L ≠ [] → params.length < idx + L.length →
      stdPairs params L idx = .error .indexError := by
  intro L
  induction L with
  | nil => intro idx h _; exact absurd rfl h
  | cons i rest ih =>
    intro idx _ h
    simp only [List.length_cons] at h
    by_cases hi : idx < params.length
    · have hrest : rest ≠ [] := by
        intro he; subst he; simp at h; omega
      have h2 : params.length < (idx + 1) + rest.length := by omega
      simp [stdPairs, pyGet_ok params idx hi, ih (idx + 1) hrest h2]
    · simp [stdPairs, pyGet_err params idx (by omega)]

theorem rxLoop_err [Inhabited α] (params : List α) :
    ∀ (L : List ℕ) (idx : ℕ), L ≠ [] → params.length < idx + L.length →
      rxLoop params L idx = .error .indexError := by
  intro L
  induction L with
  | nil => intro idx h _; exact absurd rfl h
  | cons i rest ih =>
    intro idx _ h
    simp only [List.length_cons] at h
    by_cases hi : idx < params.length
    · have hrest : rest ≠ [] := by
        intro he; subst he; simp at h; omega
      have h2 : params.length < (idx + 1) + rest.length := by omega
      simp [rxLoop, pyGet_ok params idx hi, ih (idx + 1) hrest h2]
    · simp [rxLoop, pyGet_err params idx (by omega)]

theorem egsRzOps_err [Inhabited α] (params : List α) :
    ∀ (L : List ℕ) (idx : ℕ), L ≠ [] → params.length < idx + L.length →
      egsRzOps params L idx = .error .indexError := by
  intro L
  induction L with
  | nil => intro idx h _; exact absurd rfl h
  | cons i rest ih =>
    intro idx _ h
    simp only [List.length_cons] at h
    by_cases hi : idx < params.length
    · have hrest : rest ≠ [] := by
        intro he; subst he; simp at h; omega
      have h2 : params.length < (idx + 1) + rest.length := by omega
      simp [egsRzOps, pyGet_ok params idx hi, ih (idx + 1) hrest h2]
    · simp [egsRzOps, pyGet_err params idx (by omega)]

theorem stdLayers_ok [Inhabited α] (params : List α) (n : ℕ) :
    ∀ (layers idx : ℕ), idx + layers * ((n - 1) + n) ≤ params.length →
      stdLayers params n layers idx
        = .ok (stdLayersP params n layers idx, idx + layers * ((n - 1) + n)) := by
  intro layers
  induction layers with
  | zero => intro idx _; simp [stdLayers, stdLayersP]
  | succ L ih =>
    intro idx h
    rw [Nat.succ_mul] at h
    have h1 : idx + (List.range (n - 1)).length ≤ params.length := by
      simp [List.length_range]; omega
    have h2 : (idx + (n - 1)) + (List.range n).length ≤ params.length := by
      simp [List.length_range]; omega
    have h3 : (idx + (n - 1) + n) + L * ((n - 1) + n) ≤ params.length := by omega
    simp only [stdLayers, stdPairs_ok params _ idx h1, List.length_range,
      rxLoop_ok params _ _ h2, ih _ h3, stdLayersP]
    have h4 : idx + (n - 1) + n + L * ((n - 1) + n)
        = idx + (L + 1) * ((n - 1) + n) := by rw [Nat.succ_mul]; omega
    rw [h4]

theorem egsLayers_ok [Inhabited α] (params : List α) (n : ℕ) :
    ∀ (layers idx : ℕ), idx + layers * ((n - 1) + n) ≤ params.length →
      egsLayers params n layers idx
        = .ok (egsLayersP params n layers idx, idx + layers * ((n - 1) + n)) := by
  intro layers
  induction layers with
  | zero => intro idx _; simp [egsLayers, egsLayersP]
  | succ L ih =>
    intro idx h
    rw [Nat.succ_mul] at h
    have h1 : idx + (List.range (n - 1)).length ≤ params.length := by
      simp [List.length_range]; omega
    have h2 : (idx + (n - 1)) + (List.range n).length ≤ params.length := by
      simp [List.length_range]; omega
    have h3 : (idx + (n - 1) + n) + L * ((n - 1) + n) ≤ params.length := by omega
    simp only [egsLayers, egsRzOps_ok params _ idx h1, List.length_range,
      rxLoop_ok params _ _ h2, ih _ h3, egsLayersP]
    have h4 : idx + (n - 1) + n + L * ((n - 1) + n)
        = idx + (L + 1) * ((n - 1) + n) := by rw [Nat.succ_mul]; omega
    rw [h4]
    have h5 : ∀ L' idx', (egsOpsP params L' idx').map (fun p => Gate.rz p.2 p.1)
        = egsRzP params L' idx' := by
      intro L'
      induction L' with
      | nil => intro idx'; rfl
      | cons j rest ihr => intro idx'; simp [egsOpsP, egsRzP, ihr]
    rw [h5]

theorem stdLayers_err [Inhabited α] (params : List α) (n : ℕ) :
    ∀ (layers idx : ℕ), idx ≤ params.length →
      params.length < idx + layers * ((n - 1) + n) →
      stdLayers params n layers idx = .error .indexError := by
  intro layers
  induction layers with
  | zero => intro idx hle h; simp at h; omega
  | succ L ih =>
    intro idx hle h
    rw [Nat.succ_mul] at h
    by_cases hp : params.length < idx + (n - 1)
    · have hn : n - 1 ≠ 0 := by omega
      have hne : List.range (n - 1) ≠ [] := by
        simpa [List.range_eq_nil] using hn
      simp [stdLayers, stdPairs_err params _ idx hne (by simpa [List.length_range])]
    · push_neg at hp
      have h1 : idx + (List.range (n - 1)).length ≤ params.length := by
        simpa [List.length_range]
      by_cases hq : params.length < (idx + (n - 1)) + n
      · have hn : n ≠ 0 := by omega
        have hne : List.range n ≠ [] := by simpa [List.range_eq_nil] using hn
        simp [stdLayers, stdPairs_ok params _ idx h1, List.length_range,
          rxLoop_err params _ _ hne (by simpa [List.length_range])]
      · push_neg at hq
        have h2 : (idx + (n - 1)) + (List.range n).length ≤ params.length := by
          simpa [List.length_range]
        have h3 : params.length < (idx + (n - 1) + n) + L * ((n - 1) + n) := by omega
        simp [stdLayers, stdPairs_ok params _ idx h1, List.length_range,
          rxLoop_ok params _ _ h2, ih _ (by omega) h3]

theorem egsLayers_err [Inhabited α] (params : List α) (n : ℕ) :
    ∀ (layers idx : ℕ), idx ≤ params.length →
      params.length < idx + layers * ((n - 1) + n) →
      egsLayers params n layers idx = .error .indexError := by
  intro layers
  induction layers with
  | zero => intro idx hle h; simp at h; omega
  | succ L ih =>
    intro idx hle h
    rw [Nat.succ_mul] at h
    by_cases hp : params.length < idx + (n - 1)
    · have hn : n - 1 ≠ 0 := by omega
      have hne : List.range (n - 1) ≠ [] := by
        simpa [List.range_eq_nil] using hn
      simp [egsLayers, egsRzOps_err params _ idx hne (by simpa [List.length_range])]
    · push_neg at hp
      have h1 : idx + (List.range (n - 1)).length ≤ params.length := by
        simpa [List.length_range]
      by_cases hq : params.length < (idx + (n - 1)) + n
      · have hn : n ≠ 0 := by omega
        have hne : List.range n ≠ [] := by simpa [List.range_eq_nil] using hn
        simp [egsLayers, egsRzOps_ok params _ idx h1, List.length_range,
          rxLoop_err params _ _ hne (by simpa [List.length_range])]
      · push_neg at hq
        have h2 : (idx + (n - 1)) + (List.range n).length ≤ params.length := by
          simpa [List.length_range]
        have h3 : params.length < (idx + (n - 1) + n) + L * ((n - 1) + n) := by omega
        simp [egsLayers, egsRzOps_ok params _ idx h1, List.length_range,
          rxLoop_ok params _ _ h2, ih _ (by omega) h3]

theorem nParams_eq (n l : ℕ) : nParams n l = l * ((n - 1) + n) := by
  unfold nParams; ring_nf

theorem build_std_ok [Inhabited α] (n l : ℕ) (params : List α)
    (h : nParams n l ≤ params.length) :
    build_genomic_ansatz_standard n l params
      = .ok (hRow α n ++ stdLayersP params n l 0 ++ measAll α n) := by
  rw [nParams_eq] at h
  simp [build_genomic_ansatz_standard, stdLayers_ok params n l 0 (by omega)]

theorem build_egs_ok [Inhabited α] (n l : ℕ) (params : List α)
    (h : nParams n l ≤ params.length) :
    build_genomic_ansatz_egs n l params
      = .ok (hRow α n ++ [Gate.barrier] ++ egsLayersP params n l 0
              ++ cxBlock α n l ++ measAll α n) := by
  rw [nParams_eq] at h
  simp [build_genomic_ansatz_egs, egsLayers_ok params n l 0 (by omega)]

theorem build_std_err [Inhabited α] (n l : ℕ) (params : List α)
    (h : params.length < nParams n l) :
    build_genomic_ansatz_standard n l params = .error .indexError := by
  rw [nParams_eq] at h
  simp [build_genomic_ansatz_standard,
    stdLayers_err params n l 0 (Nat.zero_le _) (by omega)]

theorem build_egs_err [Inhabited α] (n l : ℕ) (params : List α)
    (h : params.length < nParams n l) :
    build_genomic_ansatz_egs n l params = .error .indexError := by
  rw [nParams_eq] at h
  simp [build_genomic_ansatz_egs,
    egsLayers_err params n l 0 (Nat.zero_le _) (by omega)]

theorem rotsOf_append (c d : List (Gate α)) :
    rotsOf (c ++ d) = rotsOf c ++ rotsOf d := by
  simp [rotsOf, List.filter_append]

@[simp] theorem isRot_h (q : ℕ) : (Gate.h q : Gate α).isRot = false := rfl

@[simp] theorem isRot_rz (θ : α) (q : ℕ) : (Gate.rz θ q).isRot = true := rfl

@[simp] theorem isRot_rx (θ : α) (q : ℕ) : (Gate.rx θ q).isRot = true := rfl

@[simp] theorem isRot_cx (c t : ℕ) : (Gate.cx c t : Gate α).isRot = false := rfl

@[simp] theorem isRot_barrier : (Gate.barrier : Gate α).isRot = false := rfl

@[simp] theorem isRot_measure (q c : ℕ) :
    (Gate.measure q c : Gate α).isRot = false := rfl

@[simp] theorem isCx_h (q : ℕ) : (Gate.h q : Gate α).isCx = false := rfl

@[simp] theorem isCx_rz (θ : α) (q : ℕ) : (Gate.rz θ q).isCx = false := rfl

@[simp] theorem isCx_rx (θ : α) (q : ℕ) : (Gate.rx θ q).isCx = false := rfl

@[simp] theorem isCx_cx (c t : ℕ) : (Gate.cx c t : Gate α).isCx = true := rfl

@[simp] theorem isCx_barrier : (Gate.barrier : Gate α).isCx = false := rfl

@[simp] theorem isCx_measure (q c : ℕ) :
    (Gate.measure q c : Gate α).isCx = false := rfl

@[simp] theorem isBar_h (q : ℕ) : (Gate.h q : Gate α).isBar = false := rfl

@[simp] theorem isBar_rz (θ : α) (q : ℕ) : (Gate.rz θ q).isBar = false := rfl

@[simp] theorem isBar_rx (θ : α) (q : ℕ) : (Gate.rx θ q).isBar = false := rfl

@[simp] theorem isBar_cx (c t : ℕ) : (Gate.cx c t : Gate α).isBar = false := rfl

@[simp] theorem isBar_barrier : (Gate.barrier : Gate α).isBar = true := rfl

@[simp] theorem isBar_measure (q c : ℕ) :
    (Gate.measure q c : Gate α).isBar = false := rfl

theorem rotsOf_nil : rotsOf ([] : List (Gate α)) = [] := rfl

theorem rotsOf_cons (g : Gate α) (c : List (Gate α)) :
    rotsOf (g :: c) = if g.isRot then g :: rotsOf c else rotsOf c := by
  simp [rotsOf, List.filter_cons]

theorem rotsOf_stdPairsP [Inhabited α] (params : List α) :
    ∀ (L : List ℕ) (idx : ℕ),
      rotsOf (stdPairsP params L idx) = egsRzP params L idx := by
  intro L
  induction L with
  | nil => intro idx; rfl
  | cons i rest ih =>
    intro idx
    simp [stdPairsP, egsRzP, rotsOf_cons, ih (idx + 1)]

theorem rotsOf_rxP [Inhabited α] (params : List α) :
    ∀ (L : List ℕ) (idx : ℕ), rotsOf (rxP params L idx) = rxP params L idx := by
  intro L
  induction L with
  | nil => intro idx; rfl
  | cons i rest ih =>
    intro idx
    simp [rxP, rotsOf_cons, ih (idx + 1)]

theorem rotsOf_egsRzP [Inhabited α] (params : List α) :
    ∀ (L : List ℕ) (idx : ℕ), rotsOf (egsRzP params L idx) = egsRzP params L idx := by
  intro L
  induction L with
  | nil => intro idx; rfl
  | cons i rest ih =>
    intro idx
    simp [egsRzP, rotsOf_cons, ih (idx + 1)]

theorem rotsOf_layers_eq [Inhabited α] (params : List α) (n : ℕ) :
    ∀ (l idx : ℕ),
      rotsOf (stdLayersP params n l idx) = rotsOf (egsLayersP params n l idx) := by
  intro l
  induction l with
  | zero => intro idx; rfl
  | succ L ih =>
    intro idx
    simp [stdLayersP, egsLayersP, rotsOf_append, rotsOf_stdPairsP, rotsOf_rxP,
      rotsOf_egsRzP, rotsOf_cons, rotsOf_nil, ih]

theorem rotsOf_map_h (L : List ℕ) : rotsOf ((L.map Gate.h : List (Gate α))) = [] := by
  induction L with
  | nil => rfl
  | cons i rest ih => simp [rotsOf_cons, ih]

theorem rotsOf_hRow (n : ℕ) : rotsOf (hRow α n) = [] := rotsOf_map_h _

theorem rotsOf_measAll (n : ℕ) : rotsOf (measAll α n) = [] := by
  have hm : ∀ L : List ℕ,
      rotsOf ((L.map fun i => Gate.measure i i : List (Gate α))) = [] := by
    intro L
    induction L with
    | nil => rfl
    | cons i rest ih => simp [rotsOf_cons, ih]
  simp [measAll, rotsOf_cons, hm]

theorem rotsOf_cxRow (n : ℕ) : rotsOf (cxRow α n) = [] := by
  have hm : ∀ L : List ℕ,
      rotsOf ((L.map fun i => Gate.cx i (i + 1) : List (Gate α))) = [] := by
    intro L
    induction L with
    | nil => rfl
    | cons i rest ih => simp [rotsOf_cons, ih]
  exact hm _

theorem rotsOf_cxBlock (n : ℕ) : ∀ l, rotsOf (cxBlock α n l) = [] := by
  intro l
  induction l with
  | zero => rfl
  | succ L ih => simp [cxBlock, rotsOf_append, rotsOf_cxRow, ih]

/-- The rotation gates of the two built circuits agree, gate by gate, in
emission order. -/
theorem rotsOf_builds_eq [Inhabited α] (n l : ℕ) (params : List α)
    (h : nParams n l ≤ params.length) :
    ∃ cs ce, build_genomic_ansatz_standard n l params = .ok cs
      ∧ build_genomic_ansatz_egs n l params = .ok ce
      ∧ rotsOf cs = rotsOf ce := by
  refine ⟨_, _, build_std_ok n l params h, build_egs_ok n l params h, ?_⟩
  simp [rotsOf_append, rotsOf_hRow, rotsOf_measAll, rotsOf_cxBlock,
    rotsOf_cons, rotsOf_nil, rotsOf_layers_eq]

theorem sliceP_shift [Inhabited α] (a : α) (p : List α) :
    ∀ (c idx : ℕ), sliceP (a :: p) (idx + 1) c = sliceP p idx c := by
  intro c
  induction c with
  | zero => intro idx; rfl
  | succ c ih =>
    intro idx
    show pgetD (a :: p) (idx + 1) :: sliceP (a :: p) (idx + 1 + 1) c
      = pgetD p idx :: sliceP p (idx + 1) c
    rw [ih (idx + 1)]
    rfl

theorem sliceP_add [Inhabited α] (p : List α) :
    ∀ (a b idx : ℕ), sliceP p idx (a + b) = sliceP p idx a ++ sliceP p (idx + a) b := by
  intro a
  induction a with
  | zero => intro b idx; simp [sliceP]
  | succ a ih =>
    intro b idx
    have h1 : a + 1 + b = (a + b) + 1 := by omega
    rw [h1]
    show pgetD p idx :: sliceP p (idx + 1) (a + b)
      = (pgetD p idx :: sliceP p (idx + 1) a) ++ sliceP p (idx + (a + 1)) b
    rw [ih b (idx + 1)]
    have h2 : idx + 1 + a = idx + (a + 1) := by omega
    rw [h2]
    rfl

theorem sliceP_zero_take [Inhabited α] :
    ∀ (c : ℕ) (p : List α), c ≤ p.length → sliceP p 0 c = p.take c := by
  intro c
  induction c with
  | zero => intro p _; rfl
  | succ c ih =>
    intro p hp
    cases p with
    | nil => simp at hp
    | cons a as =>
      simp only [List.length_cons, Nat.succ_le_succ_iff] at hp
      show pgetD (a :: as) 0 :: sliceP (a :: as) 1 c = (a :: as).take (c + 1)
      rw [show (1 : ℕ) = 0 + 1 from rfl, sliceP_shift a as c 0, ih as hp]
      rfl

theorem rotAngles_append [Inhabited α] (c d : List (Gate α)) :
    rotAngles (c ++ d) = rotAngles c ++ rotAngles d := by
  simp [rotAngles, rotsOf_append]

theorem rotAngles_stdPairsP [Inhabited α] (params : List α) :
    ∀ (L : List ℕ) (idx : ℕ),
      rotAngles (stdPairsP params L idx) = sliceP params idx L.length := by
  intro L
  induction L with
  | nil => intro idx; rfl
  | cons i rest ih =>
    intro idx
    simp only [rotAngles] at ih ⊢
    simp [stdPairsP, rotsOf_cons, sliceP, Gate.angleOf, ih (idx + 1)]

theorem rotAngles_rxP [Inhabited α] (params : List α) :
    ∀ (L : List ℕ) (idx : ℕ),
      rotAngles (rxP params L idx) = sliceP params idx L.length := by
  intro L
  induction L with
  | nil => intro idx; rfl
  | cons i rest ih =>
    intro idx
    simp only [rotAngles] at ih ⊢
    simp [rxP, rotsOf_cons, sliceP, Gate.angleOf, ih (idx + 1)]

theorem rotAngles_stdLayersP [Inhabited α] (params : List α) (n : ℕ) :
    ∀ (l idx : ℕ),
      rotAngles (stdLayersP params n l idx) = sliceP params idx (l * ((n - 1) + n)) := by
  intro l
  induction l with
  | zero => intro idx; rw [Nat.zero_mul]; rfl
  | succ L ih =>
    intro idx
    have harr : (L + 1) * ((n - 1) + n) = ((n - 1) + n) + L * ((n - 1) + n) := by ring
    rw [stdLayersP, rotAngles_append, rotAngles_append, rotAngles_stdPairsP,
      rotAngles_rxP, ih, harr, sliceP_add, sliceP_add, List.length_range,
      List.length_range]
    simp [List.append_assoc]
    have harg : idx + (n - 1) + n = idx + ((n - 1) + n) := by omega
    rw [harg]

theorem cxCount_append (c d : List (Gate α)) :
    cxCount (c ++ d) = cxCount c + cxCount d := by
  simp [cxCount, List.countP_append]

theorem cxCount_stdPairsP [Inhabited α] (params : List α) :
    ∀ (L : List ℕ) (idx : ℕ), cxCount (stdPairsP params L idx) = 2 * L.length := by
  intro L
  induction L with
  | nil => intro idx; rfl
  | cons i rest ih =>
    intro idx
    simp only [cxCount] at ih ⊢
    simp [stdPairsP, List.countP_cons, ih (idx + 1)]
    omega

theorem cxCount_rxP [Inhabited α] (params : List α) :
    ∀ (L : List ℕ) (idx : ℕ), cxCount (rxP params L idx) = 0 := by
  intro L
  induction L with
  | nil => intro idx; rfl
  | cons i rest ih =>
    intro idx
    simp only [cxCount] at ih ⊢
    simp [rxP, List.countP_cons, ih (idx + 1)]

theorem cxCount_egsRzP [Inhabited α] (params : List α) :
    ∀ (L : List ℕ) (idx : ℕ), cxCount (egsRzP params L idx) = 0 := by
  intro L
  induction L with
  | nil => intro idx; rfl
  | cons i rest ih =>
    intro idx
    simp only [cxCount] at ih ⊢
    simp [egsRzP, List.countP_cons, ih (idx + 1)]

theorem cxCount_stdLayersP [Inhabited α] (params : List α) (n : ℕ) :
    ∀ (l idx : ℕ), cxCount (stdLayersP params n l idx) = l * (2 * (n - 1)) := by
  intro l
  induction l with
  | zero => intro idx; rw [Nat.zero_mul]; rfl
  | succ L ih =>
    intro idx
    simp only [stdLayersP, cxCount_append, cxCount_stdPairsP, cxCount_rxP,
      List.length_range, ih]
    ring

theorem cxCount_egsLayersP [Inhabited α] (params : List α) (n : ℕ) :
    ∀ (l idx : ℕ), cxCount (egsLayersP params n l idx) = 0 := by
  intro l
  induction l with
  | zero => intro idx; rfl
  | succ L ih =>
    intro idx
    simp only [egsLayersP, cxCount_append, cxCount_egsRzP, cxCount_rxP, ih]
    simp [cxCount, List.countP_cons]

theorem cxCount_cxRow (n : ℕ) : cxCount (cxRow α n) = n - 1 := by
  have hm : ∀ L : List ℕ,
      cxCount ((L.map fun i => Gate.cx i (i + 1) : List (Gate α))) = L.length := by
    intro L
    induction L with
    | nil => rfl
    | cons i rest ih =>
      simp only [cxCount] at ih ⊢
      simp [List.countP_cons, ih]
  simpa [cxRow, List.length_range] using hm (List.range (n - 1))

theorem cxCount_cxBlock (n : ℕ) : ∀ l, cxCount (cxBlock α n l) = l * (n - 1) := by
  intro l
  induction l with
  | zero => rw [Nat.zero_mul]; rfl
  | succ L ih =>
    simp only [cxBlock, cxCount_append, cxCount_cxRow, ih]
    ring

theorem cxCount_hRow (n : ℕ) : cxCount (hRow α n) = 0 := by
  have hm : ∀ L : List ℕ, cxCount ((L.map Gate.h : List (Gate α))) = 0 := by
    intro L
    induction L with
    | nil => rfl
    | cons i rest ih =>
      simp only [cxCount] at ih ⊢
      simp [List.countP_cons, ih]
  exact hm _

theorem cxCount_measAll (n : ℕ) : cxCount (measAll α n) = 0 := by
  have hm : ∀ L : List ℕ,
      cxCount ((L.map fun i => Gate.measure i i : List (Gate α))) = 0 := by
    intro L
    induction L with
    | nil => rfl
    | cons i rest ih =>
      simp only [cxCount] at ih ⊢
      simp [List.countP_cons, ih]
  simp only [measAll, cxCount, List.countP_cons]
  simp only [cxCount] at hm
  simp [hm]

theorem mem_egsRzP [Inhabited α] (params : List α) :
    ∀ (L : List ℕ) (idx : ℕ) (g : Gate α), g ∈ egsRzP params L idx →
      ∃ θ q, g = Gate.rz θ q := by
  intro L
  induction L with
  | nil => intro idx g hg; simp [egsRzP] at hg
  | cons i rest ih =>
    intro idx g hg
    simp only [egsRzP, List.mem_cons] at hg
    rcases hg with rfl | hg
    · exact ⟨_, _, rfl⟩
    · exact ih (idx + 1) g hg

theorem mem_rxP [Inhabited α] (params : List α) :
    ∀ (L : List ℕ) (idx : ℕ) (g : Gate α), g ∈ rxP params L idx →
      ∃ θ q, g = Gate.rx θ q := by
  intro L
  induction L with
  | nil => intro idx g hg; simp [rxP] at hg
  | cons i rest ih =>
    intro idx g hg
    simp only [rxP, List.mem_cons] at hg
    rcases hg with rfl | hg
    · exact ⟨_, _, rfl⟩
    · exact ih (idx + 1) g hg

/-- Every element of the per-layer rotation stages of the EGS circuit is a
rotation gate or a barrier. -/
theorem mem_egsLayersP [Inhabited α] (params : List α) (n : ℕ) :
    ∀ (l idx : ℕ) (g : Gate α), g ∈ egsLayersP params n l idx →
      g.isRot = true ∨ g = Gate.barrier := by
  intro l
  induction l with
  | zero => intro idx g hg; simp [egsLayersP] at hg
  | succ L ih =>
    intro idx g hg
    simp only [egsLayersP, List.mem_append, List.mem_singleton] at hg
    rcases hg with ((((hg | rfl) | hg) | rfl) | hg)
    · obtain ⟨θ, q, rfl⟩ := mem_egsRzP params _ _ g hg
      left; rfl
    · right; rfl
    · obtain ⟨θ, q, rfl⟩ := mem_rxP params _ _ g hg
      left; rfl
    · right; rfl
    · exact ih _ g hg

/-- Every element of the deferred entanglement stage is a `cx` gate. -/
theorem mem_cxBlock (n : ℕ) :
    ∀ (l : ℕ) (g : Gate α), g ∈ cxBlock α n l → g.isCx = true := by
  intro l
  induction l with
  | zero => intro g hg; simp [cxBlock] at hg
  | succ L ih =>
    intro g hg
    simp only [cxBlock, List.mem_append] at hg
    rcases hg with hg | hg
    · simp only [cxRow, List.mem_map] at hg
      obtain ⟨i, _, rfl⟩ := hg
      rfl
    · exact ih g hg

theorem mem_hRow (n : ℕ) (g : Gate α) (hg : g ∈ hRow α n) : ∃ q, g = Gate.h q := by
  simp only [hRow, List.mem_map] at hg
  obtain ⟨i, _, rfl⟩ := hg
  exact ⟨i, rfl⟩

theorem mem_measAll (n : ℕ) (g : Gate α) (hg : g ∈ measAll α n) :
    g = Gate.barrier ∨ ∃ q, g = Gate.measure q q := by
  simp only [measAll, List.mem_cons, List.mem_map] at hg
  rcases hg with rfl | ⟨i, _, rfl⟩
  · left; rfl
  · right; exact ⟨i, rfl⟩

theorem cxCount_build_std [Inhabited α] (n l : ℕ) (params : List α)
    (h : nParams n l ≤ params.length) :
    ∃ cs, build_genomic_ansatz_standard n l params = .ok cs
      ∧ cxCount cs = l * (2 * (n - 1)) := by
  refine ⟨_, build_std_ok n l params h, ?_⟩
  simp [cxCount_append, cxCount_hRow, cxCount_measAll, cxCount_stdLayersP]

theorem cxCount_build_egs [Inhabited α] (n l : ℕ) (params : List α)
    (h : nParams n l ≤ params.length) :
    ∃ ce, build_genomic_ansatz_egs n l params = .ok ce
      ∧ cxCount ce = l * (n - 1) := by
  refine ⟨_, build_egs_ok n l params h, ?_⟩
  simp only [cxCount_append, cxCount_hRow, cxCount_measAll, cxCount_egsLayersP,
    cxCount_cxBlock]
  simp [cxCount, List.countP_cons]

theorem pgetD_take [Inhabited α] :
    ∀ (p : List α) (m k : ℕ), k < m → pgetD (p.take m) k = pgetD p k := by
  intro p
  induction p with
  | nil => intro m k _; simp
  | cons a as ih =>
    intro m k hk
    cases m with
    | zero => omega
    | succ m' =>
      cases k with
      | zero => rfl
      | succ k' =>
        show pgetD (as.take m') k' = pgetD as k'
        exact ih m' k' (by omega)

theorem stdPairsP_congr [Inhabited α] (p q : List α) :
    ∀ (L : List ℕ) (idx : ℕ),
      (∀ k, idx ≤ k → k < idx + L.length → pgetD p k = pgetD q k) →
      stdPairsP p L idx = stdPairsP q L idx := by
  intro L
  induction L with
  | nil => intro idx _; rfl
  | cons i rest ih =>
    intro idx hk
    simp only [stdPairsP]
    rw [hk idx (le_refl idx) (by simp [List.length_cons]),
      ih (idx + 1) (fun k h1 h2 => hk k (by omega) (by simp [List.length_cons]; omega))]

theorem rxP_congr [Inhabited α] (p q : List α) :
    ∀ (L : List ℕ) (idx : ℕ),
      (∀ k, idx ≤ k → k < idx + L.length → pgetD p k = pgetD q k) →
      rxP p L idx = rxP q L idx := by
  intro L
  induction L with
  | nil => intro idx _; rfl
  | cons i rest ih =>
    intro idx hk
    simp only [rxP]
    rw [hk idx (le_refl idx) (by simp [List.length_cons]),
      ih (idx + 1) (fun k h1 h2 => hk k (by omega) (by simp [List.length_cons]; omega))]

theorem egsRzP_congr [Inhabited α] (p q : List α) :
    ∀ (L : List ℕ) (idx : ℕ),
      (∀ k, idx ≤ k → k < idx + L.length → pgetD p k = pgetD q k) →
      egsRzP p L idx = egsRzP q L idx := by
  intro L
  induction L with
  | nil => intro idx _; rfl
  | cons i rest ih =>
    intro idx hk
    simp only [egsRzP]
    rw [hk idx (le_refl idx) (by simp [List.length_cons]),
      ih (idx + 1) (fun k h1 h2 => hk k (by omega) (by simp [List.length_cons]; omega))]

theorem stdLayersP_congr [Inhabited α] (p q : List α) (n : ℕ) :
    ∀ (l idx : ℕ),
      (∀ k, idx ≤ k → k < idx + l * ((n - 1) + n) → pgetD p k = pgetD q k) →
      stdLayersP p n l idx = stdLayersP q n l idx := by
  intro l
  induction l with
  | zero => intro idx _; rfl
  | succ L ih =>
    intro idx hk
    have hs : (L + 1) * ((n - 1) + n) = ((n - 1) + n) + L * ((n - 1) + n) := by ring
    rw [hs] at hk
    simp only [stdLayersP]
    rw [stdPairsP_congr p q _ idx
        (fun k h1 h2 => hk k h1 (by simp [List.length_range] at h2 ⊢; omega)),
      rxP_congr p q _ (idx + (n - 1))
        (fun k h1 h2 => hk k (by omega) (by simp [List.length_range] at h2 ⊢; omega)),
      ih (idx + (n - 1) + n) (fun k h1 h2 => hk k (by omega) (by omega))]

theorem egsLayersP_congr [Inhabited α] (p q : List α) (n : ℕ) :
    ∀ (l idx : ℕ),
      (∀ k, idx ≤ k → k < idx + l * ((n - 1) + n) → pgetD p k = pgetD q k) →
      egsLayersP p n l idx = egsLayersP q n l idx := by
  intro l
  induction l with
  | zero => intro idx _; rfl
  | succ L ih =>
    intro idx hk
    have hs : (L + 1) * ((n - 1) + n) = ((n - 1) + n) + L * ((n - 1) + n) := by ring
    rw [hs] at hk
    simp only [egsLayersP]
    rw [egsRzP_congr p q _ idx
        (fun k h1 h2 => hk k h1 (by simp [List.length_range] at h2 ⊢; omega)),
      rxP_congr p q _ (idx + (n - 1))
        (fun k h1 h2 => hk k (by omega) (by simp [List.length_range] at h2 ⊢; omega)),
      ih (idx + (n - 1) + n) (fun k h1 h2 => hk k (by omega) (by omega))]

theorem cxCount_filter_bar (c : List (Gate α)) :
    ((c.filter fun g => !g.isBar).countP fun g => g.isCx) = cxCount c := by
  induction c with
  | nil => rfl
  | cons g rest ih =>
    cases g <;> simp [cxCount, List.filter_cons, List.countP_cons] at ih ⊢ <;> omega

/-- C1, corrected: for every valid input with `n_qubits ≥ 2` and
`n_layers ≥ 1`, the two builders do produce the same ordered sequence
(hence multiset) of rotation gates with the same angles, but NOT the same
multiset of entangling gates: the standard builder emits each adjacent
`cx` pair twice per layer (the `cx, rz, cx` interleaved unit), `2·l·(n-1)`
`cx` gates in total, while the EGS builder emits it once per layer,
`l·(n-1)` in total, so the multisets of (gate-kind, targets, angle) tuples
of the two circuits differ. -/
theorem claim_C1 (n l : ℕ) (params : List ℚ) (hn : 2 ≤ n) (hl : 1 ≤ l)
    (h : nParams n l ≤ params.length) :
    ∃ cs ce, build_genomic_ansatz_standard n l params = .ok cs
      ∧ build_genomic_ansatz_egs n l params = .ok ce
      ∧ (↑(rotsOf cs) : Multiset (Gate ℚ)) = ↑(rotsOf ce)
      ∧ cxCount cs = 2 * (l * (n - 1))
      ∧ cxCount ce = l * (n - 1)
      ∧ (↑(cs.filter fun g => !g.isBar) : Multiset (Gate ℚ))
          ≠ ↑(ce.filter fun g => !g.isBar) := by
  obtain ⟨cs, ce, h1, h2, h3⟩ := rotsOf_builds_eq n l params h
  obtain ⟨cs', h1', hc1⟩ := cxCount_build_std n l params h
  obtain ⟨ce', h2', hc2⟩ := cxCount_build_egs n l params h
  rw [h1] at h1'
  rw [h2] at h2'
  obtain rfl : cs = cs' := Except.ok.inj h1'
  obtain rfl : ce = ce' := Except.ok.inj h2'
  refine ⟨cs, ce, h1, h2, by rw [h3], by rw [hc1]; ring, hc2, ?_⟩
  intro heq
  have hperm := Multiset.coe_eq_coe.mp heq
  have hcnt := hperm.countP_eq (fun g => g.isCx)
  rw [cxCount_filter_bar, cxCount_filter_bar, hc1, hc2] at hcnt
  have h2n : l * (2 * (n - 1)) = 2 * (l * (n - 1)) := by ring
  rw [h2n] at hcnt
  have hpos : 1 ≤ l * (n - 1) := by
    have hm := Nat.mul_le_mul hl (show 1 ≤ n - 1 by omega)
    simpa using hm
  omega

/-- C1 witness: the corrected statement instantiated at
`n_qubits = 2`, `n_layers = 1`, `params = [1, 2, 3]`. -/
theorem claim_C1_witness :
    (2 ≤ 2 ∧ 1 ≤ 1 ∧ nParams 2 1 ≤ ([1, 2, 3] : List ℚ).length)
    ∧ (∃ cs ce, build_genomic_ansatz_standard 2 1 ([1, 2, 3] : List ℚ) = .ok cs
        ∧ build_genomic_ansatz_egs 2 1 ([1, 2, 3] : List ℚ) = .ok ce
        ∧ (↑(rotsOf cs) : Multiset (Gate ℚ)) = ↑(rotsOf ce)
        ∧ cxCount cs = 2 * (1 * (2 - 1))
        ∧ cxCount ce = 1 * (2 - 1)
        ∧ (↑(cs.filter fun g => !g.isBar) : Multiset (Gate ℚ))
            ≠ ↑(ce.filter fun g => !g.isBar)) :=
  ⟨⟨by decide, by decide, by decide⟩,
    claim_C1 2 1 [1, 2, 3] (by decide) (by decide) (by decide)⟩

/-- C1 counterexample: at `n_qubits = 2`, `n_layers = 1`,
`params = [0, 0, 0]`, the multisets of (gate-kind, targets, angle) tuples
of the two built circuits are NOT equal — the standard circuit holds two
`cx 0 1` gates, the EGS circuit one. -/
theorem claim_C1_cex :
    opsOfE (build_genomic_ansatz_standard 2 1 [0, 0, 0])
      ≠ opsOfE (build_genomic_ansatz_egs 2 1 [0, 0, 0]) := by decide

/-- C2, corrected: a parameter vector shorter than
`n_layers * (n_qubits + (n_qubits - 1))` makes both builders fail during
construction with Python's built-in `IndexError` (the out-of-range
`params[idx]` access) — not with `InsufficientParametersError`, a class the
repository never defines.  There is no silent wrapping or truncation. -/
theorem claim_C2 (n l : ℕ) (params : List ℚ)
    (h : params.length < nParams n l) :
    build_genomic_ansatz_standard n l params = .error .indexError
      ∧ build_genomic_ansatz_egs n l params = .error .indexError
      ∧ PyErr.indexError ≠ PyErr.insufficientParameters :=
  ⟨build_std_err n l params h, build_egs_err n l params h, by decide⟩

/-- C2 witness: the corrected statement instantiated at
`n_qubits = 2`, `n_layers = 1`, `params = [1]` (length 1 < 3). -/
theorem claim_C2_witness :
    (([1] : List ℚ).length < nParams 2 1)
    ∧ (build_genomic_ansatz_standard 2 1 ([1] : List ℚ) = .error .indexError
        ∧ build_genomic_ansatz_egs 2 1 ([1] : List ℚ) = .error .indexError
        ∧ PyErr.indexError ≠ PyErr.insufficientParameters) :=
  ⟨by decide, claim_C2 2 1 [1] (by decide)⟩

/-- C2 counterexample: at `n_qubits = 2`, `n_layers = 1` and the empty
parameter vector, both builders raise `IndexError`, which is a different
exception class than the `InsufficientParametersError` the claim names. -/
theorem claim_C2_cex :
    build_genomic_ansatz_standard 2 1 ([] : List ℚ) = .error .indexError
      ∧ build_genomic_ansatz_egs 2 1 ([] : List ℚ) = .error .indexError
      ∧ (Except.error PyErr.indexError : Except PyErr (List (Gate ℚ)))
          ≠ .error .insufficientParameters := by
  refine ⟨rfl, rfl, by decide⟩

/-- C3, confirmed: on every parameter vector covering the required count,
both builders consume parameters in the identical fixed per-layer order —
the ordered list of rotation gates (kind, target, angle) of the standard
circuit equals that of the EGS circuit, and its `N`-th gate carries angle
`params[N]`: the angles read off the rotation gates in order are exactly
the first `n_layers * (n_qubits + (n_qubits - 1))` parameters. -/
theorem claim_C3 (n l : ℕ) (params : List ℚ)
    (h : nParams n l ≤ params.length) :
    ∃ cs ce, build_genomic_ansatz_standard n l params = .ok cs
      ∧ build_genomic_ansatz_egs n l params = .ok ce
      ∧ rotsOf cs = rotsOf ce
      ∧ rotAngles cs = params.take (nParams n l) := by
  obtain ⟨cs, ce, h1, h2, h3⟩ := rotsOf_builds_eq n l params h
  refine ⟨cs, ce, h1, h2, h3, ?_⟩
  have hcs := build_std_ok n l params h
  rw [h1] at hcs
  obtain rfl : cs = _ := Except.ok.inj hcs
  rw [rotAngles_append, rotAngles_append]
  have hh : rotAngles (hRow ℚ n) = [] := by
    simp [rotAngles, rotsOf_hRow]
  have hm : rotAngles (measAll ℚ n) = [] := by
    simp [rotAngles, rotsOf_measAll]
  rw [hh, hm, rotAngles_stdLayersP, List.nil_append, List.append_nil]
  rw [← nParams_eq]
  exact sliceP_zero_take (nParams n l) params h

/-- C3 witness: instantiated at `n_qubits = 2`, `n_layers = 1`,
`params = [1, 2, 3]`. -/
theorem claim_C3_witness :
    (nParams 2 1 ≤ ([1, 2, 3] : List ℚ).length)
    ∧ (∃ cs ce, build_genomic_ansatz_standard 2 1 ([1, 2, 3] : List ℚ) = .ok cs
        ∧ build_genomic_ansatz_egs 2 1 ([1, 2, 3] : List ℚ) = .ok ce
        ∧ rotsOf cs = rotsOf ce
        ∧ rotAngles cs = ([1, 2, 3] : List ℚ).take (nParams 2 1)) :=
  ⟨by decide, claim_C3 2 1 [1, 2, 3] (by decide)⟩

/-- C4, confirmed: the EGS circuit is exactly the Hadamard prologue, a
barrier, then per layer an `rz` batch, a barrier, an `rx` batch and a
barrier (`egsLayersP`, whose successor equation is restated below), then
every layer's entangling `cx` row consolidated in one final stage, then
measurement; the rotation stages hold only rotation gates and barriers,
the final stage holds only `cx` gates, and every `cx` gate of the whole
circuit lies in that final stage. -/
theorem claim_C4 (n l : ℕ) (params : List ℚ)
    (h : nParams n l ≤ params.length) :
    ∃ cs, build_genomic_ansatz_egs n l params = .ok cs
      ∧ cs = hRow ℚ n ++ [Gate.barrier] ++ egsLayersP params n l 0
              ++ cxBlock ℚ n l ++ measAll ℚ n
      ∧ (∀ L idx, egsLayersP params n (L + 1) idx
          = egsRzP params (List.range (n - 1)) idx ++ [Gate.barrier]
              ++ rxP params (List.range n) (idx + (n - 1)) ++ [Gate.barrier]
              ++ egsLayersP params n L (idx + (n - 1) + n))
      ∧ (∀ g ∈ egsLayersP params n l 0, g.isRot = true ∨ g = Gate.barrier)
      ∧ (∀ g ∈ cxBlock ℚ n l, g.isCx = true)
      ∧ (∀ g ∈ cs, g.isCx = true → g ∈ cxBlock ℚ n l) := by
  refine ⟨_, build_egs_ok n l params h, rfl, fun L idx => rfl,
    mem_egsLayersP params n l 0, mem_cxBlock n l, ?_⟩
  intro g hg hcx
  simp only [List.mem_append, List.mem_singleton] at hg
  rcases hg with ((((hg | rfl) | hg) | hg) | hg)
  · obtain ⟨q, rfl⟩ := mem_hRow n g hg
    simp at hcx
  · simp at hcx
  · rcases mem_egsLayersP params n l 0 g hg with hrot | rfl
    · cases g <;> simp_all
    · simp at hcx
  · exact hg
  · rcases mem_measAll n g hg with rfl | ⟨q, rfl⟩
    · simp at hcx
    · simp at hcx

/-- C4 witness: instantiated at `n_qubits = 2`, `n_layers = 1`,
`params = [1, 2, 3]`. -/
theorem claim_C4_witness :
    (nParams 2 1 ≤ ([1, 2, 3] : List ℚ).length)
    ∧ (∃ cs, build_genomic_ansatz_egs 2 1 ([1, 2, 3] : List ℚ) = .ok cs
        ∧ cs = hRow ℚ 2 ++ [Gate.barrier] ++ egsLayersP [1, 2, 3] 2 1 0
                ++ cxBlock ℚ 2 1 ++ measAll ℚ 2
        ∧ (∀ L idx, egsLayersP ([1, 2, 3] : List ℚ) 2 (L + 1) idx
            = egsRzP [1, 2, 3] (List.range (2 - 1)) idx ++ [Gate.barrier]
                ++ rxP [1, 2, 3] (List.range 2) (idx + (2 - 1)) ++ [Gate.barrier]
                ++ egsLayersP [1, 2, 3] 2 L (idx + (2 - 1) + 2))
        ∧ (∀ g ∈ egsLayersP ([1, 2, 3] : List ℚ) 2 1 0,
            g.isRot = true ∨ g = Gate.barrier)
        ∧ (∀ g ∈ cxBlock ℚ 2 1, g.isCx = true)
        ∧ (∀ g ∈ cs, g.isCx = true → g ∈ cxBlock ℚ 2 1)) :=
  ⟨by decide, claim_C4 2 1 [1, 2, 3] (by decide)⟩

/-- C5, corrected: the orchestrator pipeline has no try/except, retry or
wrapping — a failure of the external transpiler on either circuit, or of
execution after both compilations succeeded, propagates to the caller
UNCHANGED, as whatever exception the external library raised; the two
phases are told apart only by which call raised, not by repo-defined
`CompilationError` / `ExecutionError` classes (which do not exist in the
code). -/
theorem claim_C5 (B : Backend) (nq nl : ℕ) (params : List ℚ)
    (qs qe : List (Gate ℚ)) (e : PyErr)
    (h1 : build_genomic_ansatz_standard nq nl params = .ok qs)
    (h2 : build_genomic_ansatz_egs nq nl params = .ok qe) :
    (B.transpileOpt3 qs = .error e → benchFrom B nq nl params = .error e)
    ∧ (∀ cs, B.transpileOpt3 qs = .ok cs → B.transpileOpt3 qe = .error e →
        benchFrom B nq nl params = .error e)
    ∧ (∀ cs ce, B.transpileOpt3 qs = .ok cs → B.transpileOpt3 qe = .ok ce →
        B.runShots cs SHOTS = .error e → benchFrom B nq nl params = .error e)
    ∧ (∀ cs ce k1, B.transpileOpt3 qs = .ok cs → B.transpileOpt3 qe = .ok ce →
        B.runShots cs SHOTS = .ok k1 → B.runShots ce SHOTS = .error e →
        benchFrom B nq nl params = .error e) := by
  refine ⟨fun ht => ?_, fun cs ht1 ht2 => ?_, fun cs ce ht1 ht2 hr => ?_,
    fun cs ce k1 ht1 ht2 hr1 hr2 => ?_⟩ <;>
    simp [benchFrom, h1, h2, *]

/-- C5 witness: the corrected statement instantiated at the
always-failing transpiler backend, `n_qubits = 2`, `n_layers = 1`,
`params = [1, 2, 3]`, error `TranspilerError`. -/
theorem claim_C5_witness :
    (build_genomic_ansatz_standard 2 1 ([1, 2, 3] : List ℚ) = .ok stdWit
      ∧ build_genomic_ansatz_egs 2 1 ([1, 2, 3] : List ℚ) = .ok egsWit)
    ∧ ((failBackend.transpileOpt3 stdWit = .error .transpilerError →
          benchFrom failBackend 2 1 [1, 2, 3] = .error .transpilerError)
      ∧ (∀ cs, failBackend.transpileOpt3 stdWit = .ok cs →
          failBackend.transpileOpt3 egsWit = .error .transpilerError →
          benchFrom failBackend 2 1 [1, 2, 3] = .error .transpilerError)
      ∧ (∀ cs ce, failBackend.transpileOpt3 stdWit = .ok cs →
          failBackend.transpileOpt3 egsWit = .ok ce →
          failBackend.runShots cs SHOTS = .error .transpilerError →
          benchFrom failBackend 2 1 [1, 2, 3] = .error .transpilerError)
      ∧ (∀ cs ce k1, failBackend.transpileOpt3 stdWit = .ok cs →
          failBackend.transpileOpt3 egsWit = .ok ce →
          failBackend.runShots cs SHOTS = .ok k1 →
          failBackend.runShots ce SHOTS = .error .transpilerError →
          benchFrom failBackend 2 1 [1, 2, 3] = .error .transpilerError)) :=
  ⟨⟨by decide, by decide⟩,
    claim_C5 failBackend 2 1 [1, 2, 3] stdWit egsWit .transpilerError
      (by decide) (by decide)⟩

/-- C5 counterexample: a complete benchmark run in which the external
transpiler rejects the circuit surfaces qiskit's own `TranspilerError` to
the caller, not a `CompilationError`. -/
theorem claim_C5_cex :
    (run_egs_benchmark constRandom failBackend 4 2 1 ()).1
        = .error .transpilerError
      ∧ PyErr.transpilerError ≠ PyErr.compilationError := by
  exact ⟨by decide, by decide⟩

/-- C6, confirmed: under the numpy contract for `uniform` (result length
equals the requested size; entries in `[low, high)` whenever `low < high`),
parameter generation in `run_egs_benchmark` is deterministic — the vector
does not depend on the RNG state the caller held, because `np.random.seed(42)`
runs first — has length `n_layers * (n_qubits + (n_qubits - 1))`, lies in
`[-π, π)` (`piv` models the float constant `np.pi`), and the run feeds both
circuit builders that single vector (it factors through `benchFrom` applied
to it). -/
theorem claim_C6 (R : NpRandom) (B : Backend) (piv : ℚ) (nq nl : ℕ)
    (hlen : ∀ lo hi k st, ((R.uniform lo hi k st).1).length = k)
    (hrange : ∀ lo hi k st, lo < hi → ∀ x ∈ (R.uniform lo hi k st).1,
        lo ≤ x ∧ x < hi)
    (hpiv : 0 < piv) :
    ((benchParams R piv nq nl).1).length = nParams nq nl
    ∧ (∀ x ∈ (benchParams R piv nq nl).1, -piv ≤ x ∧ x < piv)
    ∧ (∀ s s' : R.State, (run_egs_benchmark R B piv nq nl s).1
        = (run_egs_benchmark R B piv nq nl s').1)
    ∧ (∀ s : R.State, (run_egs_benchmark R B piv nq nl s).1
        = benchFrom B nq nl (benchParams R piv nq nl).1) :=
  ⟨hlen _ _ _ _, hrange _ _ _ _ (neg_lt_self hpiv), fun s s' => rfl, fun s => rfl⟩

/-- C6 witness: instantiated at the degenerate sampler, the identity
backend, `piv = 4`, `n_qubits = 2`, `n_layers = 1`. -/
theorem claim_C6_witness :
    ((0 : ℚ) < 4)
    ∧ (((benchParams constRandom 4 2 1).1).length = nParams 2 1
      ∧ (∀ x ∈ (benchParams constRandom 4 2 1).1, -(4 : ℚ) ≤ x ∧ x < 4)
      ∧ (∀ s s' : constRandom.State,
          (run_egs_benchmark constRandom okBackend 4 2 1 s).1
            = (run_egs_benchmark constRandom okBackend 4 2 1 s').1)
      ∧ (∀ s : constRandom.State,
          (run_egs_benchmark constRandom okBackend 4 2 1 s).1
            = benchFrom okBackend 2 1 (benchParams constRandom 4 2 1).1)) :=
  ⟨by norm_num,
    claim_C6 constRandom okBackend 4 2 1
      (by intro lo hi k st; simp [constRandom])
      (by
        intro lo hi k st hlt x hx
        simp only [constRandom, List.mem_replicate] at hx
        rcases hx with ⟨-, rfl⟩
        exact ⟨le_refl _, hlt⟩)
      (by norm_num)⟩

/-- C7, confirmed: `create_thermal_noise` is a pure constant: it registers
exactly two all-qubit channels — for the single-qubit gate class the
thermal relaxation error over the 60 ns single-qubit duration composed
with (i.e. applied before) the fixed `depolarizing_error(0.001, 1)`, and
for the two-qubit class the tensor product of two single-qubit thermal
relaxation errors over the 300 ns two-qubit duration composed with (again
applied before) `depolarizing_error(0.01, 2)`. -/
theorem claim_C7 :
    create_thermal_noise
      = [⟨QErr.compose
            (QErr.thermal_relaxation (120 / 1000000) (80 / 1000000)
              (60 / 1000000000))
            (QErr.depolarizing (1 / 1000) 1),
          ["h", "x", "z", "ry", "rz", "rx", "s", "t"], true⟩,
         ⟨QErr.compose
            (QErr.tensor
              (QErr.thermal_relaxation (120 / 1000000) (80 / 1000000)
                (300 / 1000000000))
              (QErr.thermal_relaxation (120 / 1000000) (80 / 1000000)
                (300 / 1000000000)))
            (QErr.depolarizing (1 / 100) 2),
          ["cx", "cz"], true⟩]
    ∧ create_thermal_noise.length = 2
    ∧ ∀ r ∈ create_thermal_noise, r.allQubits = true := by
  refine ⟨rfl, rfl, ?_⟩
  intro r hr
  simp only [create_thermal_noise, addAllQubitQuantumError, List.nil_append,
    List.singleton_append, List.mem_cons, List.not_mem_nil, or_false] at hr
  rcases hr with rfl | rfl <;> rfl

/-- C8, confirmed: with `n_layers = 0` the required parameter count is 0,
and on the empty vector both builders succeed, producing only the
per-qubit Hadamard superposition prologue and the final measurement of
every qubit (plus barrier markers), with no rotation and no entangling
gate anywhere in either circuit. -/
theorem claim_C8 (n : ℕ) :
    nParams n 0 = 0
    ∧ build_genomic_ansatz_standard n 0 ([] : List ℚ)
        = .ok (hRow ℚ n ++ measAll ℚ n)
    ∧ build_genomic_ansatz_egs n 0 ([] : List ℚ)
        = .ok (hRow ℚ n ++ [Gate.barrier] ++ measAll ℚ n)
    ∧ (∀ g ∈ hRow ℚ n ++ measAll ℚ n, g.isRot = false ∧ g.isCx = false)
    ∧ (∀ g ∈ hRow ℚ n ++ [Gate.barrier] ++ measAll ℚ n,
        g.isRot = false ∧ g.isCx = false) := by
  have h0 : nParams n 0 = 0 := by simp [nParams]
  refine ⟨h0, ?_, ?_, ?_, ?_⟩
  · have hb := build_std_ok n 0 ([] : List ℚ) (by simp [h0])
    simpa [stdLayersP] using hb
  · have hb := build_egs_ok n 0 ([] : List ℚ) (by simp [h0])
    simpa [egsLayersP, cxBlock] using hb
  · intro g hg
    rcases List.mem_append.mp hg with hg | hg
    · obtain ⟨q, rfl⟩ := mem_hRow n g hg
      exact ⟨rfl, rfl⟩
    · rcases mem_measAll n g hg with rfl | ⟨q, rfl⟩ <;> exact ⟨rfl, rfl⟩
  · intro g hg
    rcases List.mem_append.mp hg with hg | hg
    · rcases List.mem_append.mp hg with hg | hg
      · obtain ⟨q, rfl⟩ := mem_hRow n g hg
        exact ⟨rfl, rfl⟩
      · obtain rfl := List.mem_singleton.mp hg
        exact ⟨rfl, rfl⟩
    · rcases mem_measAll n g hg with rfl | ⟨q, rfl⟩ <;> exact ⟨rfl, rfl⟩

/-- C9, confirmed: on any parameter vector at least as long as the
required count, both builders succeed, and the circuits they produce are
identical to the ones built from the vector truncated to exactly
`n_layers * (n_qubits + (n_qubits - 1))` entries — all surplus entries are
silently ignored. -/
theorem claim_C9 (n l : ℕ) (params : List ℚ)
    (h : nParams n l ≤ params.length) :
    build_genomic_ansatz_standard n l params
        = build_genomic_ansatz_standard n l (params.take (nParams n l))
    ∧ build_genomic_ansatz_egs n l params
        = build_genomic_ansatz_egs n l (params.take (nParams n l))
    ∧ (∃ cs, build_genomic_ansatz_standard n l params = .ok cs)
    ∧ (∃ ce, build_genomic_ansatz_egs n l params = .ok ce) := by
  have hlen : nParams n l ≤ (params.take (nParams n l)).length := by
    simp [List.length_take]; omega
  have hcong : ∀ k, k < nParams n l →
      pgetD params k = pgetD (params.take (nParams n l)) k :=
    fun k hk => (pgetD_take params (nParams n l) k hk).symm
  refine ⟨?_, ?_, ⟨_, build_std_ok n l params h⟩, ⟨_, build_egs_ok n l params h⟩⟩
  · rw [build_std_ok n l params h, build_std_ok n l _ hlen,
      stdLayersP_congr params (params.take (nParams n l)) n l 0
        (fun k h1 h2 => hcong k (by rw [nParams_eq]; omega))]
  · rw [build_egs_ok n l params h, build_egs_ok n l _ hlen,
      egsLayersP_congr params (params.take (nParams n l)) n l 0
        (fun k h1 h2 => hcong k (by rw [nParams_eq]; omega))]

/-- C9 witness: instantiated at `n_qubits = 2`, `n_layers = 1` and the
5-entry vector `[1, 2, 3, 4, 5]` (two entries longer than required). -/
theorem claim_C9_witness :
    (nParams 2 1 ≤ ([1, 2, 3, 4, 5] : List ℚ).length)
    ∧ (build_genomic_ansatz_standard 2 1 ([1, 2, 3, 4, 5] : List ℚ)
          = build_genomic_ansatz_standard 2 1
              (([1, 2, 3, 4, 5] : List ℚ).take (nParams 2 1))
      ∧ build_genomic_ansatz_egs 2 1 ([1, 2, 3, 4, 5] : List ℚ)
          = build_genomic_ansatz_egs 2 1
              (([1, 2, 3, 4, 5] : List ℚ).take (nParams 2 1))
      ∧ (∃ cs, build_genomic_ansatz_standard 2 1 ([1, 2, 3, 4, 5] : List ℚ)
          = .ok cs)
      ∧ (∃ ce, build_genomic_ansatz_egs 2 1 ([1, 2, 3, 4, 5] : List ℚ)
          = .ok ce)) :=
  ⟨by decide, claim_C9 2 1 [1, 2, 3, 4, 5] (by decide)⟩

/-- C10, confirmed: every `run_egs_benchmark` call overwrites the
process-global numpy generator state: the state the caller is left with is
exactly the state reached from `seed(42)` after drawing the parameter
vector — independent of the state `s` the caller had before — so any
subsequent draw by the caller is a function of the fixed seed 42, not of
the caller's prior RNG state. -/
theorem claim_C10 (R : NpRandom) (B : Backend) (piv : ℚ) (nq nl : ℕ)
    (s s' : R.State) :
    (run_egs_benchmark R B piv nq nl s).2 = (benchParams R piv nq nl).2
    ∧ (run_egs_benchmark R B piv nq nl s).2
        = (run_egs_benchmark R B piv nq nl s').2
    ∧ ∀ lo hi k, R.uniform lo hi k (run_egs_benchmark R B piv nq nl s).2
        = R.uniform lo hi k (run_egs_benchmark R B piv nq nl s').2 :=
  ⟨rfl, rfl, fun lo hi k => rfl⟩
